import Mathlib

/-!
# Verification of the Kairo backend ingestion pipeline

A shallow embedding of the Kairo backend's ingestion-and-deduplication
pipeline (email polling, meeting polling/processing, the processed-item
ledger, and the extraction-response normalization logic), together with
theorems checking the stated behavioural properties against the code.

Conventions of the embedding:
* Python dictionary/JSON values are modelled by the inductive `PyVal`
  (with an extra `date` constructor for `datetime` objects that the
  normalizer writes back into parsed dictionaries).
* `json.loads` is an external library call; it is modelled as an oracle
  parameter `loads : String → Option PyVal`, where `none` stands for a
  `json.JSONDecodeError`.
* MongoDB collections are lists of documents; `insert_one` against a
  collection carrying a unique index is modelled as an `Except` that
  fails with a duplicate-key error when the key is already present
  (the indexes are the ones declared in `create_indexes`).
* Timestamps are abstract ticks (`Nat`); only their identity matters here.
* Python exception control flow is modelled with `Except`/`Option`
  branches that mirror the `try/except` structure of the source.
* Character classes (`\s`, `\d`, `str.strip`) are modelled over ASCII.
-/

namespace Kairo

/-- Abstract timestamp (a `datetime.utcnow()` tick). -/
abbrev Timestamp := Nat

/-! String primitives, implemented over the character list so that every
definition reduces by computation (the Python semantics is per
codepoint, so the character-list versions agree with the byte-position
ones). -/

/-- `len(s) == 0`. -/
def strIsEmpty (s : String) : Bool := s.data.isEmpty

/-- `s.lower()` (ASCII oriented). -/
def strLower (s : String) : String := String.mk (s.data.map Char.toLower)

/-- `s.startswith(p)`. -/
def strStartsWith (s p : String) : Bool := p.data.isPrefixOf s.data

/-- `s.endswith(p)`. -/
def strEndsWith (s p : String) : Bool := p.data.reverse.isPrefixOf s.data.reverse

/-- `s[:n]`. -/
def strTakeChars (s : String) (n : Nat) : String := String.mk (s.data.take n)

/-- Model of a Python/JSON value as it flows through the pipeline.
`date` models a `datetime` object produced by `datetime.strptime`. -/
inductive PyVal where
  | none
  | bool (b : Bool)
  | int (n : Int)
  | str (s : String)
  | list (xs : List PyVal)
  | dict (fields : List (String × PyVal))
  | date (y m d : Nat)

/-- Python truthiness (`bool(v)`) for the modelled values. -/
def PyVal.truthy : PyVal → Bool
  | .none => false
  | .bool b => b
  | .int n => n != 0
  | .str s => !(strIsEmpty s)
  | .list xs => !xs.isEmpty
  | .dict fs => !fs.isEmpty
  | .date _ _ _ => true

/-- Field list of a Python dict. -/
abbrev Fields := List (String × PyVal)

/-- `d.get(k)` — `none` when the key is absent. -/
def fget (fs : Fields) (k : String) : Option PyVal :=
  fs.lookup k

/-- `d.get(k, default)`. -/
def fgetD (fs : Fields) (k : String) (d : PyVal) : PyVal :=
  (fget fs k).getD d

/-- `d[k] = v` — in-place update of a dict field (append when absent). -/
def setKey (fs : Fields) (k : String) (v : PyVal) : Fields :=
  match fs with
  | [] => [(k, v)]
  | (k', v') :: rest => if k' = k then (k, v) :: rest else (k', v') :: setKey rest k v

/-- `iter(v)` for the modelled values: lists yield elements, strings yield
their characters, dicts yield their keys; everything else raises. -/
def pyIter : PyVal → Except String (List PyVal)
  | .list xs => .ok xs
  | .str s => .ok (s.data.map (fun c => .str (String.mk [c])))
  | .dict fs => .ok (fs.map (fun kv => .str kv.1))
  | _ => .error "TypeError: object is not iterable"

/-- `v[:n]` — Python slicing, defined on strings and lists, raising otherwise. -/
def pySliceTake (n : Nat) : PyVal → Except String PyVal
  | .str s => .ok (.str (strTakeChars s n))
  | .list xs => .ok (.list (xs.take n))
  | _ => .error "TypeError: object is not subscriptable"

/-- ASCII whitespace, the characters matched by `\s` and stripped by
`str.strip()` (restricted to ASCII). -/
def isPySpace (c : Char) : Bool :=
  c = ' ' || c = '\t' || c = '\n' || c = '\r' || c = '\x0b' || c = '\x0c'

/-- `str.strip()` over ASCII whitespace. -/
def pyStrip (s : String) : String :=
  String.mk (((s.data.dropWhile isPySpace).reverse.dropWhile isPySpace).reverse)

/-- The markdown code-fence stripping performed by `_parse_gemini_response`
and `_parse_meeting_summary_response`:
`strip()`, then the three anchored substitutions removing a leading
"```json" fence, a leading "```" fence and a trailing "```" fence
(each together with adjacent whitespace), then a final `strip()`. -/
def stripCodeFences (t : String) : String :=
  let c := pyStrip t
  let c := if strStartsWith c "```json" then
      String.mk ((c.data.drop 7).dropWhile isPySpace) else c
  let c := if strStartsWith c "```" then
      String.mk ((c.data.drop 3).dropWhile isPySpace) else c
  let c := if strEndsWith c "```" then
      String.mk (((c.data.take (c.data.length - 3)).reverse.dropWhile isPySpace).reverse)
    else c
  pyStrip c

/-- Value of a run of ASCII digits. -/
def digitsToNat (cs : List Char) : Nat :=
  cs.foldl (fun acc c => acc * 10 + (c.toNat - '0'.toNat)) 0

/-- Split a character list at dashes — the literal separators of the
`%Y-%m-%d` pattern; mirrors `str.split('-')` grouping. -/
def splitOnDash : List Char → List (List Char)
  | [] => [[]]
  | c :: rest =>
    match splitOnDash rest with
    | [] => [[]]
    | g :: gs => if c = '-' then [] :: g :: gs else (c :: g) :: gs

/-- Whether `y` is a Gregorian leap year (`calendar`/`datetime` rule). -/
def isLeapYear (y : Nat) : Bool :=
  (y % 4 = 0 && y % 100 ≠ 0) || y % 400 = 0

/-- Number of days in month `m` of year `y`. -/
def daysInMonth (y m : Nat) : Nat :=
  if m = 2 then (if isLeapYear y then 29 else 28)
  else if m = 4 || m = 6 || m = 9 || m = 11 then 30
  else 31

/-- Model of `datetime.strptime(s, "%Y-%m-%d")` (ASCII digits): a four-digit
year ≥ 1, a one- or two-digit month in 1..12, a one- or two-digit day valid
for that month, separated by literal dashes, with nothing left over.
Returns the `(year, month, day)` triple on success. -/
def parseDate (s : String) : Option (Nat × Nat × Nat) :=
  match splitOnDash s.data with
  | [ys, ms, ds] =>
    if ys.length = 4 && ys.all Char.isDigit
        && (1 ≤ ms.length && ms.length ≤ 2) && ms.all Char.isDigit
        && (1 ≤ ds.length && ds.length ≤ 2) && ds.all Char.isDigit then
      let y := digitsToNat ys
      let m := digitsToNat ms
      let d := digitsToNat ds
      if 1 ≤ y && 1 ≤ m && m ≤ 12 && 1 ≤ d && d ≤ daysInMonth y m then
        some (y, m, d)
      else
        Option.none
    else
      Option.none
  | _ => Option.none

/-! ## Extraction Normalizer (`GeminiService`) -/

/-- The `valid_priorities` list of `_parse_gemini_response` and
`_parse_meeting_summary_response`. -/
def validPriorities : List String := ["low", "medium", "high"]

/-- `task.get('priority') in valid_priorities`: only the three string
values compare equal to an element of the list. -/
def priorityValid (v : PyVal) : Bool :=
  match v with
  | .str s => validPriorities.contains s
  | _ => false

/-- The priority-fixing line shared by `_parse_gemini_response` and
`_parse_meeting_summary_response`:
`if task.get('priority') not in valid_priorities: task['priority'] = 'medium'`. -/
def fixPriority (fs : Fields) : Fields :=
  if priorityValid (fgetD fs "priority" .none) then fs
  else setKey fs "priority" (.str "medium")

/-- The deadline lines of the `_parse_gemini_response` task loop: a truthy
deadline must be a string (else `strptime` raises a `TypeError` escaping
to the enclosing `except`) and is replaced by the parsed `datetime`, or
by `None` on `ValueError`; a falsy deadline is set to `None`. -/
def emailFixDeadline (fs : Fields) : Except String Fields :=
  let dl := fgetD fs "deadline" .none
  if dl.truthy then
    match dl with
    | .str s =>
      match parseDate s with
      | some (y, m, d) => .ok (setKey fs "deadline" (.date y m d))
      | Option.none => .ok (setKey fs "deadline" .none)
    | _ => .error "TypeError: strptime() argument 1 must be str"
  else
    .ok (setKey fs "deadline" .none)

/-- Per-candidate validation step of `_parse_gemini_response`
(the body of its `for task in tasks` loop):
`.ok none` models `continue` (missing title/description),
`.ok (some c)` the validated (mutated-in-place) task dict,
`.error` an exception escaping to the enclosing `except` clause
(`task.get` on a non-dict, `strptime` on a truthy non-string deadline). -/
def validateEmailTask (t : PyVal) : Except String (Option PyVal) :=
  match t with
  | .dict fs =>
    if !(fgetD fs "title" .none).truthy || !(fgetD fs "description" .none).truthy then
      .ok Option.none
    else
      (emailFixDeadline (fixPriority fs)).map (fun fs' => some (.dict fs'))
  | _ => .error "AttributeError: object has no attribute get"

/-- The `for task in tasks` loop of `_parse_gemini_response`, collecting
`validated_tasks`; the first exception aborts the whole parse. -/
def validateEmailTasks : List PyVal → Except String (List PyVal)
  | [] => .ok []
  | t :: ts => do
    let c ← validateEmailTask t
    let rest ← validateEmailTasks ts
    match c with
    | some v => .ok (v :: rest)
    | Option.none => .ok rest

/-- The part of `_parse_gemini_response` that follows `json.loads`:
argument `none` models a `json.JSONDecodeError`.  Mirrors, in order, the
top-level-dict check, the `has_tasks` flag check, the `tasks` array
check, per-task validation, and the assembly of the backward-compatible
result dict (first validated task echoed at the root). -/
def parse_gemini_response_json : Option PyVal → Option PyVal
  | Option.none => Option.none
  | some v =>
    match v with
    | .dict fs =>
      if !(fgetD fs "has_tasks" (.bool false)).truthy then Option.none
      else
        match fgetD fs "tasks" (.list []) with
        | .list xs =>
          if xs.isEmpty then Option.none
          else
            match validateEmailTasks xs with
            | .error _ => Option.none
            | .ok validated =>
              match validated with
              | [] => Option.none
              | v0 :: _ =>
                match v0 with
                | .dict f0 =>
                  some (.dict
                    [("has_task", .bool true), ("has_tasks", .bool true),
                     ("tasks", .list validated),
                     ("title", fgetD f0 "title" .none),
                     ("description", fgetD f0 "description" .none),
                     ("priority", fgetD f0 "priority" .none),
                     ("deadline", fgetD f0 "deadline" .none)])
                | _ => Option.none
        | _ => Option.none
    | _ => Option.none

/-- `GeminiService._parse_gemini_response`: strip code fences, `json.loads`
via the `loads` oracle, then validate. -/
def parse_gemini_response (loads : String → Option PyVal) (text : String) : Option PyVal :=
  parse_gemini_response_json (loads (stripCodeFences text))

/-- `GeminiService.extract_task_from_email`: `none` for `responseText`
models an exception from the `generate_content` API call, which the
method catches and turns into `None`. -/
def extract_task_from_email (loads : String → Option PyVal)
    (responseText : Option String) : Option PyVal :=
  match responseText with
  | Option.none => Option.none
  | some t => parse_gemini_response loads t

/-- The deadline lines of the `_parse_meeting_summary_response` action-item
loop: for a truthy deadline, a bare `strptime` call checks the value (a
non-string raises a `TypeError` escaping to the enclosing `except`) and
the field is nulled on `ValueError` — but a valid deadline stays the
original string, and a falsy deadline is left untouched. -/
def meetingFixDeadline (fs : Fields) : Except String Fields :=
  let dl := fgetD fs "deadline" .none
  if dl.truthy then
    match dl with
    | .str s =>
      if (parseDate s).isSome then .ok fs
      else .ok (setKey fs "deadline" .none)
    | _ => .error "TypeError: strptime() argument 1 must be str"
  else
    .ok fs

/-- Per-action-item step of `_parse_meeting_summary_response`
(the body of its `for item in summary_data.get('action_items', [])` loop):
fixes an invalid priority to "medium" and sanitizes the deadline.
`.error` models an exception escaping to the enclosing `except` clause. -/
def validateActionItem (t : PyVal) : Except String PyVal :=
  match t with
  | .dict fs => (meetingFixDeadline (fixPriority fs)).map PyVal.dict
  | _ => .error "AttributeError: object has no attribute get"

/-- The action-item loop of `_parse_meeting_summary_response`. -/
def validateActionItems : List PyVal → Except String (List PyVal)
  | [] => .ok []
  | t :: ts => do
    let c ← validateActionItem t
    let rest ← validateActionItems ts
    .ok (c :: rest)

/-- The part of `_parse_meeting_summary_response` following `json.loads`:
requires the `summary`, `key_points` and `action_items` keys to be
present in a top-level dict, then validates each action item in place.
A non-list `action_items` value raises while being iterated (hence the
whole parse returns `none`), except that iterating an empty dict or an
empty string performs no loop iterations at all. -/
def parse_meeting_summary_response_json : Option PyVal → Option PyVal
  | Option.none => Option.none
  | some v =>
    match v with
    | .dict fs =>
      if (fget fs "summary").isSome && (fget fs "key_points").isSome
          && (fget fs "action_items").isSome then
        match fgetD fs "action_items" (.list []) with
        | .list xs =>
          match validateActionItems xs with
          | .ok ys => some (.dict (setKey fs "action_items" (.list ys)))
          | .error _ => Option.none
        | .dict gs => if gs.isEmpty then some (.dict fs) else Option.none
        | .str s => if strIsEmpty s then some (.dict fs) else Option.none
        | _ => Option.none
      else
        Option.none
    | _ => Option.none

/-- `GeminiService._parse_meeting_summary_response`. -/
def parse_meeting_summary_response (loads : String → Option PyVal)
    (text : String) : Option PyVal :=
  parse_meeting_summary_response_json (loads (stripCodeFences text))

/-- `GeminiService.summarize_meeting_transcript`: `none` for
`responseText` models an exception from the API call, caught and turned
into `None`. -/
def summarize_meeting_transcript (loads : String → Option PyVal)
    (responseText : Option String) : Option PyVal :=
  match responseText with
  | Option.none => Option.none
  | some t => parse_meeting_summary_response loads t

/-! ## Processed-Item Ledger (`ProcessedEmail`) -/

/-- A document of the `processed_emails` collection. -/
structure ProcessedEmailRec where
  email_id : String
  user_id : String
  tasks_created : Nat
  processed_at : Timestamp
deriving DecidableEq, Repr

/-- `find_one({'email_id': e, 'user_id': u})` on `processed_emails`. -/
def find_processed (coll : List ProcessedEmailRec) (e u : String) : Option ProcessedEmailRec :=
  coll.find? (fun r => r.email_id == e && r.user_id == u)

/-- `insert_one` into `processed_emails` under the unique index on
`(email_id, user_id)` declared in `create_indexes`: inserting a document
whose key is already present raises a duplicate-key error. -/
def processed_insert_one (coll : List ProcessedEmailRec) (r : ProcessedEmailRec) :
    Except String (List ProcessedEmailRec) :=
  if (find_processed coll r.email_id r.user_id).isSome then
    .error "E11000 duplicate key error collection: processed_emails"
  else
    .ok (coll ++ [r])

/-- `ProcessedEmail.mark_as_processed(email_id, user_id, tasks_created)`. -/
def mark_as_processed (coll : List ProcessedEmailRec) (email_id user_id : String)
    (tasks_created : Nat) (now : Timestamp) : Except String (List ProcessedEmailRec) :=
  processed_insert_one coll ⟨email_id, user_id, tasks_created, now⟩

/-- `ProcessedEmail.is_processed(email_id, user_id)`. -/
def is_processed (coll : List ProcessedEmailRec) (e u : String) : Bool :=
  (find_processed coll e u).isSome

/-! ## Task model (`Task.create`) -/

/-- A document of the `tasks` collection, with the fields set by
`Task.create` (`created_at`/`updated_at` collapsed to one tick). -/
structure TaskDoc where
  title : PyVal
  description : PyVal
  priority : PyVal
  status : String
  deadline : PyVal
  assigned_to : Option String
  created_by : Option String
  email_id : Option String
  sender_email : Option String
  user_email : Option String
  labels : PyVal
  source_type : String
  meeting_id : Option String
  meeting_title : Option String
  meeting_date : PyVal
  created_at : Timestamp

/-- `Task.create`: the argument record carries the keyword arguments of
the Python call; the body applies the `description or ''` and
`labels or []` coercions and appends the document to the collection
(the `tasks` collection has no unique index). -/
def Task.create (tasks : List TaskDoc) (t : TaskDoc) : List TaskDoc :=
  tasks ++ [{ t with
    description := if t.description.truthy then t.description else .str "",
    labels := if t.labels.truthy then t.labels else .list [] }]

/-! ## Users and email data -/

/-- The user fields the pipeline reads (`email` via `user.get('email')`,
checkpoints as per-user fields). -/
structure UserDoc where
  id : String
  email : Option String
  last_email_check : Option Timestamp
  last_meeting_check : Option Timestamp
deriving DecidableEq, Repr

/-- A parsed email as returned by `GmailService.parse_email`:
`sender` is the raw `From` header (`email_data['from']`). -/
structure EmailData where
  message_id : String
  subject : String
  body : String
  sender : String
deriving DecidableEq, Repr

/-- Content scan for the lazy group of `re.search(r'<(.+?)>', s)` after an
opening angle bracket: consume characters (never a newline) until a
closing angle bracket arrives with a nonempty group accumulated. -/
def angleScan : List Char → List Char → Option String
  | [], _ => Option.none
  | c :: rest, acc =>
    if c = '\n' then Option.none
    else if c = '>' && !acc.isEmpty then some (String.mk acc.reverse)
    else angleScan rest (c :: acc)

/-- Leftmost match of `re.search(r'<(.+?)>', s)`, returning group 1. -/
def angleSearch : List Char → Option String
  | [] => Option.none
  | c :: rest =>
    if c = '<' then
      match angleScan rest [] with
      | some content => some content
      | Option.none => angleSearch rest
    else angleSearch rest

/-- `GmailService.extract_sender_email(from_header)`. -/
def extract_sender_email (from_header : String) : String :=
  match angleSearch from_header.data with
  | some content => content
  | Option.none => pyStrip from_header

/-! ## Email pipeline (`EmailPollingService`) -/

/-- The persistent state touched by `_process_email_for_tasks`. -/
structure EmailPipelineState where
  tasks : List TaskDoc
  processed_emails : List ProcessedEmailRec

/-- The "no task found" branch of `_process_email_for_tasks`: ledger the
item with `tasks_created=0` and return `False`; a duplicate-key error
from the insert propagates to the enclosing `except`, which also
returns `False`. -/
def mark_email_no_task (email_id user_id : String) (now : Timestamp)
    (st : EmailPipelineState) : Bool × EmailPipelineState :=
  match mark_as_processed st.processed_emails email_id user_id 0 now with
  | .ok coll => (false, { st with processed_emails := coll })
  | .error _ => (false, st)

/-- The `for task_info in tasks_to_create` loop of
`_process_email_for_tasks`: a non-dict element raises inside the
per-item `try` (its `.get` call) and is skipped; a dict element becomes
a Task with email provenance and the owner's denormalized `user_email`.
`labels` is read from the outer `task_data` dict in the source, so it is
passed in once. -/
def create_email_tasks (email : EmailData) (user : UserDoc) (sender_email : String)
    (labels : PyVal) (now : Timestamp) :
    List PyVal → List TaskDoc → Nat → List TaskDoc × Nat
  | [], tasks, count => (tasks, count)
  | ti :: rest, tasks, count =>
    match ti with
    | .dict tif =>
      create_email_tasks email user sender_email labels now rest
        (Task.create tasks
          { title := fgetD tif "title" (.str email.subject)
            description := fgetD tif "description" (.str "")
            priority := fgetD tif "priority" (.str "medium")
            status := "pending"
            deadline := fgetD tif "deadline" .none
            assigned_to := some user.id
            created_by := some user.id
            email_id := some email.message_id
            sender_email := some sender_email
            user_email := user.email
            labels := labels
            source_type := "email"
            meeting_id := Option.none
            meeting_title := Option.none
            meeting_date := .none
            created_at := now })
        (count + 1)
    | _ => create_email_tasks email user sender_email labels now rest tasks count

/-- `EmailPollingService._process_email_for_tasks`.
`geminiText = none` models an exception from the Gemini API call (the
service catches it and returns `None`); `loads` is the `json.loads`
oracle.  Returns the `created_count > 0` flag and the new state. -/
def process_email_for_tasks (loads : String → Option PyVal) (geminiText : Option String)
    (email : EmailData) (user : UserDoc) (now : Timestamp) (st : EmailPipelineState) :
    Bool × EmailPipelineState :=
  let email_id := email.message_id
  let user_id := user.id
  let sender_email := extract_sender_email email.sender
  if strLower sender_email = strLower (user.email.getD "") then (false, st)
  else if is_processed st.processed_emails email_id user_id then (false, st)
  else
    match extract_task_from_email loads geminiText with
    | Option.none => mark_email_no_task email_id user_id now st
    | some td =>
      if !td.truthy then mark_email_no_task email_id user_id now st
      else
        match td with
        | .dict fs =>
          if !(fgetD fs "has_task" (.bool false)).truthy then
            mark_email_no_task email_id user_id now st
          else
            let tasks_val := fgetD fs "tasks" (.list [])
            let itemsE : Except String (List PyVal) :=
              if !tasks_val.truthy then
                .ok [.dict [("title", fgetD fs "title" (.str email.subject)),
                            ("description", fgetD fs "description" (.str "")),
                            ("priority", fgetD fs "priority" (.str "medium")),
                            ("deadline", fgetD fs "deadline" .none)]]
              else pyIter tasks_val
            match itemsE with
            | .error _ => (false, st)
            | .ok items =>
              let r := create_email_tasks email user sender_email
                (fgetD fs "labels" (.list [])) now items st.tasks 0
              match mark_as_processed st.processed_emails email_id user_id r.2 now with
              | .ok coll => (decide (0 < r.2), ⟨r.1, coll⟩)
              | .error _ => (false, { st with tasks := r.1 })
        | _ => (false, st)

/-- `EmailPollingService._check_user_emails`, abstracted over the Gmail
service availability, the fetched batch, and the per-item processing
routine (whose exceptions are caught per item, so it is modelled as a
total state transformer).  The returned `Nat` counts the calls to
`User.update_last_email_check` — the per-user email checkpoint writes.
When the fetch returns no emails the routine returns before the
checkpoint write. -/
def check_user_emails (gmailAvailable : Bool) (fetched : List EmailData)
    (procItem : EmailData → EmailPipelineState → Bool × EmailPipelineState)
    (st : EmailPipelineState) : EmailPipelineState × Nat :=
  if !gmailAvailable then (st, 0)
  else if fetched.isEmpty then (st, 0)
  else
    (fetched.foldl (fun s e => (procItem e s).2) st, 1)

/-! ## Meeting model (`Meeting`) -/

/-- A document of the `meetings` collection. -/
structure MeetingDoc where
  id : String
  calendar_event_id : String
  user_id : String
  title : String
  description : String
  start_time : PyVal
  end_time : PyVal
  attendees : PyVal
  meet_link : String
  recording_url : String
  recording_id : String
  processing_status : String
  processed_at : Option Timestamp
  error_message : Option String
  created_at : Timestamp
  updated_at : Timestamp

/-- A calendar event as returned by
`CalendarService.get_past_meet_events_with_recordings`. -/
structure MeetingData where
  calendar_event_id : String
  title : String
  description : String
  start_time : PyVal
  end_time : PyVal
  attendees : PyVal
  meet_link : String

/-- `Meeting.find_by_calendar_event_id(calendar_event_id, user_id)`. -/
def find_by_calendar_event_id (coll : List MeetingDoc) (cid uid : String) :
    Option MeetingDoc :=
  coll.find? (fun m => m.calendar_event_id == cid && m.user_id == uid)

/-- `insert_one` into `meetings` under the unique index on
`(calendar_event_id, user_id)` declared in `create_indexes`. -/
def meeting_insert_one (coll : List MeetingDoc) (m : MeetingDoc) :
    Except String (List MeetingDoc) :=
  if (find_by_calendar_event_id coll m.calendar_event_id m.user_id).isSome then
    .error "E11000 duplicate key error collection: meetings"
  else
    .ok (coll ++ [m])

/-- `Meeting.create` from a discovered calendar event (the fields the
polling service passes; the remaining fields take the Python defaults,
`processing_status` starting at `pending`).  Applies the
`description or ''` and `attendees or []` coercions; the string
coercion is the identity on strings, kept for fidelity. -/
def Meeting.create (coll : List MeetingDoc) (d : MeetingData) (uid newId : String)
    (now : Timestamp) : Except String (List MeetingDoc) :=
  meeting_insert_one coll
    { id := newId
      calendar_event_id := d.calendar_event_id
      user_id := uid
      title := d.title
      description := if !(strIsEmpty d.description) then d.description else ""
      start_time := d.start_time
      end_time := d.end_time
      attendees := if d.attendees.truthy then d.attendees else .list []
      meet_link := d.meet_link
      recording_url := ""
      recording_id := ""
      processing_status := "pending"
      processed_at := Option.none
      error_message := Option.none
      created_at := now
      updated_at := now }

/-- `Meeting.update_status(meeting_id, status, processed_at, error_message)`
on the matched document: a `$set` of `processing_status` and
`updated_at`, plus `processed_at` when passed (a datetime is always
truthy) and `error_message` when passed and nonempty (the Python
`if error_message:` truthiness check). -/
def Meeting.update_status (m : MeetingDoc) (status : String) (now : Timestamp)
    (processed_at : Option Timestamp) (error_message : Option String) : MeetingDoc :=
  let m := { m with processing_status := status, updated_at := now }
  let m := match processed_at with
    | some t => { m with processed_at := some t }
    | Option.none => m
  match error_message with
  | some e => if !(strIsEmpty e) then { m with error_message := some e } else m
  | Option.none => m

/-- `MeetingPollingService._check_user_meetings`, abstracted over the
calendar service availability and the fetched events; `freshId`
supplies the `_id` values MongoDB would generate.  The returned `Nat`
counts the calls to `User.update_last_meeting_check`: the routine
writes the checkpoint once whether or not the fetch returned events
(a per-event duplicate-key error is caught and skipped). -/
def check_user_meetings (calendarAvailable : Bool) (fetched : List MeetingData)
    (user : UserDoc) (freshId : Nat → String) (now : Timestamp)
    (coll : List MeetingDoc) : List MeetingDoc × Nat :=
  if !calendarAvailable then (coll, 0)
  else if fetched.isEmpty then (coll, 1)
  else
    let step := fun (acc : List MeetingDoc × Nat) (d : MeetingData) =>
      if (find_by_calendar_event_id acc.1 d.calendar_event_id user.id).isSome then
        (acc.1, acc.2 + 1)
      else
        match Meeting.create acc.1 d user.id (freshId acc.2) now with
        | .ok coll' => (coll', acc.2 + 1)
        | .error _ => (acc.1, acc.2 + 1)
    ((fetched.foldl step (coll, 0)).1, 1)

/-! ## Meeting transcripts and summaries -/

/-- A document of the `meeting_transcripts` collection. -/
structure TranscriptDoc where
  meeting_id : String
  user_id : String
  transcript_text : String
  transcript_segments : PyVal
  language : String
  confidence : Rat

/-- `MeetingTranscript.create` under the unique index on `meeting_id`
declared in `create_indexes` (applying the `transcript_segments or []`
coercion). -/
def MeetingTranscript.create (coll : List TranscriptDoc) (meeting_id user_id : String)
    (text : String) (segments : PyVal) (language : String) (confidence : Rat) :
    Except String (List TranscriptDoc) :=
  if (coll.find? (fun t => t.meeting_id == meeting_id)).isSome then
    .error "E11000 duplicate key error collection: meeting_transcripts"
  else
    .ok (coll ++ [{ meeting_id, user_id, transcript_text := text,
                    transcript_segments := if segments.truthy then segments else .list [],
                    language, confidence }])

/-- A document of the `meeting_summaries` collection. -/
structure SummaryDoc where
  meeting_id : String
  user_id : String
  summary : PyVal
  key_points : PyVal
  decisions_made : PyVal
  action_items : PyVal
  participants_mentioned : PyVal
  topics_discussed : PyVal
  next_meeting : PyVal

/-- `MeetingSummary.create` under the unique index on `meeting_id`
declared in `create_indexes` (applying the `x or []` coercions to the
list-valued fields; `next_meeting` is stored as passed). -/
def MeetingSummary.create (coll : List SummaryDoc) (s : SummaryDoc) :
    Except String (List SummaryDoc) :=
  if (coll.find? (fun t => t.meeting_id == s.meeting_id)).isSome then
    .error "E11000 duplicate key error collection: meeting_summaries"
  else
    .ok (coll ++ [{ s with
      key_points := if s.key_points.truthy then s.key_points else .list []
      decisions_made := if s.decisions_made.truthy then s.decisions_made else .list []
      action_items := if s.action_items.truthy then s.action_items else .list []
      participants_mentioned :=
        if s.participants_mentioned.truthy then s.participants_mentioned else .list []
      topics_discussed :=
        if s.topics_discussed.truthy then s.topics_discussed else .list [] }])

/-- `MeetingSummary.update_task_id(meeting_id, idx, task_id)` on one
summary document: a `$set` of `action_items.idx.task_id`, modelled for
the in-range list-of-dicts shape the pipeline produces (other shapes
are left unchanged). -/
def MeetingSummary.update_task_id (s : SummaryDoc) (idx : Nat) (task_id : String) :
    SummaryDoc :=
  match s.action_items with
  | .list xs =>
    match xs.get? idx with
    | some (.dict fs) =>
      { s with action_items := .list (xs.set idx (.dict (setKey fs "task_id" (.str task_id)))) }
    | _ => s
  | _ => s

/-- `update_one({'meeting_id': mid}, ...)` for `update_task_id`: updates
the first summary document matching the meeting id. -/
def summaries_update_task_id (coll : List SummaryDoc) (meeting_id : String)
    (idx : Nat) (task_id : String) : List SummaryDoc :=
  match coll with
  | [] => []
  | s :: rest =>
    if s.meeting_id = meeting_id then MeetingSummary.update_task_id s idx task_id :: rest
    else s :: summaries_update_task_id rest meeting_id idx task_id

/-! ## Meeting processing state machine (`MeetingPollingService.process_meeting`) -/

/-- The external collaborators of one `process_meeting` run:
the looked-up user, the Drive service availability, the
`find_meeting_recording` result (`(id, name)`), the `get_document_text`
result, the raw Gemini summary response (`none` = API exception) and
the `json.loads` oracle. -/
structure MeetingEnv where
  user : Option UserDoc
  driveAvailable : Bool
  transcriptFile : Option (String × String)
  docText : Option String
  summaryText : Option String
  loads : String → Option PyVal

/-- The persistent state touched by one `process_meeting` run. -/
structure MeetingProcState where
  meeting : MeetingDoc
  transcripts : List TranscriptDoc
  summaries : List SummaryDoc
  tasks : List TaskDoc

/-- A failure exit of `process_meeting`: transition the meeting to
`failed` with the error message and return `False` (both the explicit
`return False` sites and the top-level `except` clause do this). -/
def meeting_fail (st : MeetingProcState) (now : Timestamp) (msg : String) :
    Bool × MeetingProcState :=
  (false,
   { st with meeting := Meeting.update_status st.meeting "failed" now Option.none (some msg) })

/-- The `for idx, action_item in enumerate(...)` loop of
`process_meeting`: a per-item exception (missing `description` key,
unsliceable description, non-dict item) is caught and skipped; a
created Task carries meeting provenance, the owner's denormalized
`user_email`, and its id is written back into the summary's action
item.  Returns the tasks, the summaries and `tasks_created`. -/
def create_action_item_tasks (user : UserDoc) (meeting : MeetingDoc)
    (freshTaskId : Nat → String) (now : Timestamp) :
    List (Nat × PyVal) → List TaskDoc → List SummaryDoc → Nat →
    List TaskDoc × List SummaryDoc × Nat
  | [], tasks, summaries, count => (tasks, summaries, count)
  | (idx, item) :: rest, tasks, summaries, count =>
    match item with
    | .dict afs =>
      match fget afs "description" with
      | Option.none => create_action_item_tasks user meeting freshTaskId now rest tasks summaries count
      | some dval =>
        match pySliceTake 100 dval with
        | .error _ => create_action_item_tasks user meeting freshTaskId now rest tasks summaries count
        | .ok titleVal =>
          create_action_item_tasks user meeting freshTaskId now rest
            (Task.create tasks
              { title := titleVal
                description := fgetD afs "context" dval
                priority := fgetD afs "priority" (.str "medium")
                status := "pending"
                deadline := fgetD afs "deadline" .none
                assigned_to := some user.id
                created_by := some user.id
                email_id := Option.none
                sender_email := Option.none
                user_email := user.email
                labels := .none
                source_type := "meeting"
                meeting_id := some meeting.id
                meeting_title := some meeting.title
                meeting_date := meeting.start_time
                created_at := now })
            (summaries_update_task_id summaries meeting.id idx (freshTaskId idx))
            (count + 1)
    | _ => create_action_item_tasks user meeting freshTaskId now rest tasks summaries count

/-- `MeetingPollingService.process_meeting`: set `processing`, look up
the user, get the Drive service, find the transcript/notes document,
read it, persist the transcript, summarize, persist the summary,
materialize a Task per action item, and finish `completed`; every
failure (explicit or raised) transitions to `failed` with a message.
The `summary_data['summary']`-style field reads are modelled with
defaulted lookups; the parse guarantees the required keys are present. -/
def process_meeting (env : MeetingEnv) (freshTaskId : Nat → String) (now : Timestamp)
    (st : MeetingProcState) : Bool × MeetingProcState :=
  let st := { st with
    meeting := Meeting.update_status st.meeting "processing" now Option.none Option.none }
  match env.user with
  | Option.none => meeting_fail st now "User not found"
  | some user =>
    if !env.driveAvailable then meeting_fail st now "Drive service not available"
    else
      match env.transcriptFile with
      | Option.none => meeting_fail st now "No transcript or Gemini notes found in Google Drive"
      | some _file =>
        match env.docText with
        | Option.none => meeting_fail st now "Failed to read transcript/notes content"
        | some text =>
          if strIsEmpty text then meeting_fail st now "Failed to read transcript/notes content"
          else
            match MeetingTranscript.create st.transcripts st.meeting.id user.id text
                (.list []) "en-US" 1 with
            | .error e => meeting_fail st now e
            | .ok transcripts' =>
              let st := { st with transcripts := transcripts' }
              match summarize_meeting_transcript env.loads env.summaryText with
              | Option.none => meeting_fail st now "Failed to generate summary"
              | some sd =>
                match sd with
                | .dict sfs =>
                  match MeetingSummary.create st.summaries
                      { meeting_id := st.meeting.id
                        user_id := user.id
                        summary := fgetD sfs "summary" .none
                        key_points := fgetD sfs "key_points" (.list [])
                        decisions_made := fgetD sfs "decisions_made" (.list [])
                        action_items := fgetD sfs "action_items" (.list [])
                        participants_mentioned := fgetD sfs "participants_mentioned" (.list [])
                        topics_discussed := fgetD sfs "topics_discussed" (.list [])
                        next_meeting := fgetD sfs "next_meeting" .none } with
                  | .error e => meeting_fail st now e
                  | .ok summaries' =>
                    let st := { st with summaries := summaries' }
                    match pyIter (fgetD sfs "action_items" (.list [])) with
                    | .error e => meeting_fail st now e
                    | .ok items =>
                      let r := create_action_item_tasks user st.meeting freshTaskId now
                        items.enum st.tasks st.summaries 0
                      let done := Meeting.update_status st.meeting "completed" now
                        (some now) Option.none
                      (true, { st with tasks := r.1, summaries := r.2.1, meeting := done })
                | _ => meeting_fail st now "TypeError: value is not subscriptable"

/-! ## Manual trigger route (`MeetingProcess.post`) -/

/-- The observable outcome of a `POST /<meeting_id>/process` request:
HTTP status, the `success` flag, whether a background processing thread
was started, and the stored meeting after the request. -/
structure ProcessRouteResult where
  http_status : Nat
  success : Bool
  thread_started : Bool
  meeting : Option MeetingDoc

/-- `MeetingProcess.post(meeting_id)`: 404 when the meeting does not
exist, 403 when the requester does not own it, 400 (`success: false`,
no thread) when its `processing_status` is already `processing`,
otherwise start the background run and eagerly set `processing`
(HTTP 202). -/
def meeting_process_post (requester_id : String) (meeting : Option MeetingDoc)
    (now : Timestamp) : ProcessRouteResult :=
  match meeting with
  | Option.none => ⟨404, false, false, Option.none⟩
  | some m =>
    if m.user_id ≠ requester_id then ⟨403, false, false, some m⟩
    else if m.processing_status = "processing" then ⟨400, false, false, some m⟩
    else ⟨202, true, true, some (Meeting.update_status m "processing" now Option.none Option.none)⟩

/-! ## Dictionary lemmas -/

theorem fget_setKey_self (fs : Fields) (k : String) (v : PyVal) :
    fget (setKey fs k v) k = some v := by
  induction fs with
  | nil => simp [setKey, fget, List.lookup]
  | cons kv rest ih =>
    obtain ⟨k', v'⟩ := kv
    by_cases h : k' = k
    · subst h
      simp [setKey, fget, List.lookup]
    · have hb : (k == k') = false := beq_eq_false_iff_ne.mpr (Ne.symm h)
      simpa [setKey, h, fget, List.lookup, hb] using ih

theorem fget_setKey_ne (fs : Fields) (k k' : String) (v : PyVal) (h : k' ≠ k) :
    fget (setKey fs k v) k' = fget fs k' := by
  have hb : (k' == k) = false := beq_eq_false_iff_ne.mpr h
  induction fs with
  | nil => simp [setKey, fget, List.lookup, hb]
  | cons kv rest ih =>
    obtain ⟨k0, v0⟩ := kv
    by_cases h0 : k0 = k
    · subst h0
      simp [setKey, fget, List.lookup, hb]
    · by_cases h1 : k' = k0
      · subst h1
        simp [setKey, h0, fget, List.lookup]
      · have hb1 : (k' == k0) = false := beq_eq_false_iff_ne.mpr h1
        simpa [setKey, h0, fget, List.lookup, hb1] using ih

/-- Field access on a dict value (`none` on anything else). -/
def pvGet : PyVal → String → Option PyVal
  | .dict fs, k => fget fs k
  | _, _ => Option.none


/-! ## Normalizer component lemmas -/

theorem strIsEmpty_iff (s : String) : strIsEmpty s = true ↔ s = "" := by
  obtain ⟨data⟩ := s
  cases data <;> simp [strIsEmpty, String.ext_iff]

theorem fixPriority_of_invalid (fs : Fields)
    (h : priorityValid (fgetD fs "priority" .none) = false) :
    fget (fixPriority fs) "priority" = some (.str "medium") := by
  simp [fixPriority, h, fget_setKey_self]

theorem emailFixDeadline_shape (fs fs' : Fields) (h : emailFixDeadline fs = .ok fs') :
    fs' = setKey fs "deadline" PyVal.none ∨
    ∃ y m d, fs' = setKey fs "deadline" (.date y m d) := by
  simp only [emailFixDeadline] at h
  split at h
  · split at h
    · split at h
      · exact Or.inr ⟨_, _, _, (Except.ok.inj h).symm⟩
      · exact Or.inl (Except.ok.inj h).symm
    · exact Except.noConfusion h
  · exact Or.inl (Except.ok.inj h).symm

theorem emailFixDeadline_fget_ne (fs fs' : Fields) (k : String) (hk : k ≠ "deadline")
    (h : emailFixDeadline fs = .ok fs') : fget fs' k = fget fs k := by
  rcases emailFixDeadline_shape fs fs' h with h1 | ⟨y, m, d, h1⟩ <;>
    (subst h1; exact fget_setKey_ne _ _ _ _ hk)

theorem meetingFixDeadline_shape (fs fs' : Fields) (h : meetingFixDeadline fs = .ok fs') :
    fs' = fs ∨ fs' = setKey fs "deadline" PyVal.none := by
  simp only [meetingFixDeadline] at h
  split at h
  · split at h
    · split at h
      · exact Or.inl (Except.ok.inj h).symm
      · exact Or.inr (Except.ok.inj h).symm
    · exact Except.noConfusion h
  · exact Or.inl (Except.ok.inj h).symm

theorem meetingFixDeadline_fget_ne (fs fs' : Fields) (k : String) (hk : k ≠ "deadline")
    (h : meetingFixDeadline fs = .ok fs') : fget fs' k = fget fs k := by
  rcases meetingFixDeadline_shape fs fs' h with h1 | h1
  · subst h1; rfl
  · subst h1; exact fget_setKey_ne _ _ _ _ hk

theorem meetingFixDeadline_deadline (fs fs' : Fields)
    (h : meetingFixDeadline fs = .ok fs') :
    ∀ s, fget fs' "deadline" = some (.str s) → s = "" ∨ (parseDate s).isSome = true := by
  intro s hdl
  simp only [meetingFixDeadline] at h
  split at h
  · rename_i htr
    split at h
    · rename_i s0 heq
      split at h
      · rename_i hps
        cases Except.ok.inj h
        right
        have h2 : fgetD fs "deadline" PyVal.none = PyVal.str s := by
          simp [fgetD, hdl]
        rw [h2] at heq
        cases heq
        exact hps
      · cases Except.ok.inj h
        rw [fget_setKey_self] at hdl
        exact PyVal.noConfusion (Option.some.inj hdl)
    · exact Except.noConfusion h
  · rename_i htr
    cases Except.ok.inj h
    left
    have h2 : fgetD fs "deadline" PyVal.none = PyVal.str s := by
      simp [fgetD, hdl]
    rw [h2] at htr
    simpa [PyVal.truthy, strIsEmpty_iff] using htr

/-- C7: for every candidate task or action item whose `priority` value is
not one of low/medium/high (including an absent one), the validated
output of the Normalizer carries priority "medium". -/
theorem normalizer_priority_defaults_to_medium (fs : Fields)
    (h : priorityValid (fgetD fs "priority" .none) = false) :
    (∀ c, validateEmailTask (.dict fs) = .ok (some c) →
       pvGet c "priority" = some (.str "medium")) ∧
    (∀ c, validateActionItem (.dict fs) = .ok c →
       pvGet c "priority" = some (.str "medium")) := by
  constructor
  · intro c hc
    simp only [validateEmailTask] at hc
    split at hc
    · exact Option.noConfusion (Except.ok.inj hc)
    · cases he : emailFixDeadline (fixPriority fs) with
      | error e => rw [he] at hc; exact Except.noConfusion hc
      | ok fs' =>
        rw [he] at hc
        simp only [Except.map] at hc
        cases Option.some.inj (Except.ok.inj hc)
        simp only [pvGet]
        rw [emailFixDeadline_fget_ne _ _ _ (by decide) he]
        exact fixPriority_of_invalid fs h
  · intro c hc
    simp only [validateActionItem] at hc
    cases he : meetingFixDeadline (fixPriority fs) with
    | error e => rw [he] at hc; exact Except.noConfusion hc
    | ok fs' =>
      rw [he] at hc
      simp only [Except.map] at hc
      cases Except.ok.inj hc
      simp only [pvGet]
      rw [meetingFixDeadline_fget_ne _ _ _ (by decide) he]
      exact fixPriority_of_invalid fs h

/-- C7 witness: a candidate with priority "urgent" comes out with
priority "medium". -/
theorem normalizer_priority_medium_witness :
    pvGet (.dict [("title", PyVal.str "T"), ("description", PyVal.str "D"),
        ("priority", PyVal.str "medium"), ("deadline", PyVal.none)]) "priority"
      = some (PyVal.str "medium") :=
  (normalizer_priority_defaults_to_medium
      [("title", PyVal.str "T"), ("description", PyVal.str "D"),
       ("priority", PyVal.str "urgent")]
      (by decide)).1 _ rfl

/-- C4 (amended): the email normalizer turns every validated candidate's
deadline into a parsed date or null (never a string); the meeting
normalizer leaves a string deadline on a validated action item only if
it parses as a `%Y-%m-%d` date or is the empty string (the empty string
is passed through unchanged, not nulled). -/
theorem normalizer_deadline_sanitized (fs : Fields) :
    (∀ c, validateEmailTask (.dict fs) = .ok (some c) →
       pvGet c "deadline" = some PyVal.none ∨
       ∃ y m d, pvGet c "deadline" = some (.date y m d)) ∧
    (∀ c s, validateActionItem (.dict fs) = .ok c →
       pvGet c "deadline" = some (.str s) →
       s = "" ∨ (parseDate s).isSome = true) := by
  constructor
  · intro c hc
    simp only [validateEmailTask] at hc
    split at hc
    · exact Option.noConfusion (Except.ok.inj hc)
    · cases he : emailFixDeadline (fixPriority fs) with
      | error e => rw [he] at hc; exact Except.noConfusion hc
      | ok fs' =>
        rw [he] at hc
        simp only [Except.map] at hc
        cases Option.some.inj (Except.ok.inj hc)
        rcases emailFixDeadline_shape _ _ he with h1 | ⟨y, m, d, h1⟩
        · subst h1
          exact Or.inl (by simp [pvGet, fget_setKey_self])
        · subst h1
          exact Or.inr ⟨y, m, d, by simp [pvGet, fget_setKey_self]⟩
  · intro c s hc hdl
    simp only [validateActionItem] at hc
    cases he : meetingFixDeadline (fixPriority fs) with
    | error e => rw [he] at hc; exact Except.noConfusion hc
    | ok fs' =>
      rw [he] at hc
      simp only [Except.map] at hc
      cases Except.ok.inj hc
      exact meetingFixDeadline_deadline _ _ he s (by simpa [pvGet] using hdl)

/-! ## Concrete fixtures -/

/-- A concrete user. -/
def userW : UserDoc := ⟨"u1", some "me@x.com", Option.none, Option.none⟩

/-- A concrete pending meeting owned by `userW`. -/
def meetingW : MeetingDoc :=
  ⟨"mid1", "cev1", "u1", "Standup", "", .none, .none, .list [], "", "", "",
   "pending", Option.none, Option.none, 0, 0⟩

/-- A parsed summary whose single action item carries an empty-string
deadline. -/
def emptyDeadlineSummary : PyVal :=
  .dict [("summary", .str "s"), ("key_points", .list []),
         ("action_items", .list [.dict [("description", .str "Do X"),
                                        ("deadline", .str "")]])]

/-- An environment in which meeting processing succeeds end to end and the
summary is `emptyDeadlineSummary`. -/
def emptyDeadlineEnv : MeetingEnv :=
  ⟨some userW, true, some ("f", "n"), some "transcript text", some "resp",
   fun _ => some emptyDeadlineSummary⟩

/-- C4 counterexample: processing a meeting whose extracted action item has
the present-but-empty (hence unparseable) deadline string completes and
materializes a Task whose deadline is the raw empty string, not null. -/
theorem meeting_deadline_empty_string_counterexample :
    ((process_meeting emptyDeadlineEnv (fun _ => "t0") 9
        ⟨meetingW, [], [], []⟩).2.tasks.map TaskDoc.deadline = [PyVal.str ""]) ∧
    parseDate "" = Option.none ∧ PyVal.str "" ≠ PyVal.none :=
  ⟨rfl, rfl, fun h => PyVal.noConfusion h⟩

/-- C4 witness: a parseable deadline string survives the meeting
normalizer, and an unparseable one is nulled by the email normalizer. -/
theorem normalizer_deadline_sanitized_witness :
    ("2025-11-22" = "" ∨ (parseDate "2025-11-22").isSome = true) ∧
    (pvGet (.dict [("title", PyVal.str "T"), ("description", PyVal.str "D"),
        ("deadline", PyVal.none), ("priority", PyVal.str "medium")]) "deadline"
        = some PyVal.none ∨
     ∃ y m d, pvGet (.dict [("title", PyVal.str "T"), ("description", PyVal.str "D"),
        ("deadline", PyVal.none), ("priority", PyVal.str "medium")]) "deadline"
        = some (PyVal.date y m d)) :=
  ⟨(normalizer_deadline_sanitized
      [("description", PyVal.str "D"), ("deadline", PyVal.str "2025-11-22")]).2
      (.dict [("description", PyVal.str "D"), ("deadline", PyVal.str "2025-11-22"),
              ("priority", PyVal.str "medium")]) "2025-11-22" rfl rfl,
   (normalizer_deadline_sanitized
      [("title", PyVal.str "T"), ("description", PyVal.str "D"),
       ("deadline", PyVal.str "bogus")]).1
      (.dict [("title", PyVal.str "T"), ("description", PyVal.str "D"),
              ("deadline", PyVal.none), ("priority", PyVal.str "medium")]) rfl⟩


/-! ## C1: ledger uniqueness -/

/-- C1: once a ProcessedEmail record exists for `(e, u)`, a second
`mark_as_processed` call fails with a duplicate-key error instead of
inserting, and the stored record keeps the first call's `tasks_created`. -/
theorem mark_as_processed_second_call_fails
    (coll : List ProcessedEmailRec) (e u : String) (n1 n2 : Nat) (t1 t2 : Timestamp)
    (h : is_processed coll e u = false) :
    mark_as_processed coll e u n1 t1 = .ok (coll ++ [⟨e, u, n1, t1⟩]) ∧
    mark_as_processed (coll ++ [⟨e, u, n1, t1⟩]) e u n2 t2 =
      .error "E11000 duplicate key error collection: processed_emails" ∧
    find_processed (coll ++ [⟨e, u, n1, t1⟩]) e u = some ⟨e, u, n1, t1⟩ := by
  have hnone : find_processed coll e u = Option.none := by
    cases hfp : find_processed coll e u with
    | none => rfl
    | some r => rw [is_processed, hfp] at h; simp at h
  have hfind : find_processed (coll ++ [(⟨e, u, n1, t1⟩ : ProcessedEmailRec)]) e u
      = some ⟨e, u, n1, t1⟩ := by
    rw [find_processed, List.find?_append]
    rw [find_processed] at hnone
    simp [hnone, List.find?]
  refine ⟨?_, ?_, hfind⟩
  · simp [mark_as_processed, processed_insert_one, hnone]
  · simp [mark_as_processed, processed_insert_one, hfind]

/-- C1 witness: on the empty ledger, mark (3 tasks), re-mark (5 tasks):
the second call errors and the stored count stays 3. -/
theorem mark_as_processed_second_call_fails_witness :
    mark_as_processed [] "m1" "u1" 3 7 = .ok [⟨"m1", "u1", 3, 7⟩] ∧
    mark_as_processed [⟨"m1", "u1", 3, 7⟩] "m1" "u1" 5 8 =
      .error "E11000 duplicate key error collection: processed_emails" ∧
    find_processed [⟨"m1", "u1", 3, 7⟩] "m1" "u1" = some ⟨"m1", "u1", 3, 7⟩ :=
  mark_as_processed_second_call_fails [] "m1" "u1" 3 5 7 8 rfl

/-! ## C2: checkpoint updates -/

/-- C2 counterexample: an email poll pass whose fetch returns no emails
performs zero checkpoint updates, not exactly one. -/
theorem email_checkpoint_not_updated_counterexample :
    (check_user_emails true [] (fun _ s => (false, s)) ⟨[], []⟩).2 = 0 ∧ (0 : Nat) ≠ 1 :=
  ⟨rfl, by decide⟩

/-- C2 (amended): the meeting poll routine writes the user's checkpoint
exactly once per pass whenever the calendar service is available,
regardless of the fetched events and per-item outcomes; the email poll
routine writes it exactly once when the fetch returns at least one
email, and zero times when the fetch is empty. -/
theorem checkpoint_update_counts
    (procItem : EmailData → EmailPipelineState → Bool × EmailPipelineState)
    (st : EmailPipelineState) (fetched : List EmailData) (user : UserDoc)
    (freshId : Nat → String) (now : Timestamp) (coll : List MeetingDoc)
    (mfetched : List MeetingData) :
    (fetched ≠ [] → (check_user_emails true fetched procItem st).2 = 1) ∧
    (fetched = [] → (check_user_emails true fetched procItem st).2 = 0) ∧
    (check_user_meetings true mfetched user freshId now coll).2 = 1 := by
  refine ⟨?_, ?_, ?_⟩
  · intro h
    cases fetched with
    | nil => exact absurd rfl h
    | cons a l => rfl
  · intro h
    subst h
    rfl
  · cases mfetched <;> rfl

/-- C2 witness: one fetched email yields one checkpoint write; an empty
meeting fetch still yields one checkpoint write. -/
theorem checkpoint_update_counts_witness :
    (check_user_emails true [⟨"m1", "s", "b", "f"⟩] (fun _ s => (false, s)) ⟨[], []⟩).2 = 1 ∧
    (check_user_meetings true [] userW (fun _ => "i0") 0 []).2 = 1 :=
  ⟨(checkpoint_update_counts (fun _ s => (false, s)) ⟨[], []⟩ [⟨"m1", "s", "b", "f"⟩]
      userW (fun _ => "i0") 0 [] []).1 (List.cons_ne_nil _ _),
   (checkpoint_update_counts (fun _ s => (false, s)) ⟨[], []⟩ [⟨"m1", "s", "b", "f"⟩]
      userW (fun _ => "i0") 0 [] []).2.2⟩

/-! ## C6: self-sent email skip -/

/-- C6: an email whose extracted sender equals the owning user's own
address (case-insensitively) is skipped: no Task and no Ledger record
are created, whatever the content. -/
theorem self_sent_email_skipped
    (loads : String → Option PyVal) (geminiText : Option String) (email : EmailData)
    (user : UserDoc) (now : Timestamp) (st : EmailPipelineState)
    (h : strLower (extract_sender_email email.sender) = strLower (user.email.getD "")) :
    process_email_for_tasks loads geminiText email user now st = (false, st) := by
  simp [process_email_for_tasks, h]

/-- C6 witness: a user emailing themselves (case differing) produces no
state change. -/
theorem self_sent_email_skipped_witness :
    process_email_for_tasks (fun _ => Option.none) (some "x")
      ⟨"m2", "S", "B", "Me <ME@X.com>"⟩ userW 7 ⟨[], []⟩ = (false, ⟨[], []⟩) :=
  self_sent_email_skipped (fun _ => Option.none) (some "x")
    ⟨"m2", "S", "B", "Me <ME@X.com>"⟩ userW 7 ⟨[], []⟩ rfl

/-! ## C3: malformed extraction output -/

/-- C3: a response text that is not valid JSON after fence stripping makes
the Normalizer return `None`, and the email pipeline still ledgers the
item with `tasks_created = 0` and creates no Task. -/
theorem malformed_response_ledgered_zero
    (loads : String → Option PyVal) (text : String) (email : EmailData) (user : UserDoc)
    (now : Timestamp) (st : EmailPipelineState)
    (hjson : loads (stripCodeFences text) = Option.none)
    (hsender : strLower (extract_sender_email email.sender) ≠ strLower (user.email.getD ""))
    (hnew : is_processed st.processed_emails email.message_id user.id = false) :
    parse_gemini_response loads text = Option.none ∧
    process_email_for_tasks loads (some text) email user now st =
      (false, ⟨st.tasks, st.processed_emails ++ [⟨email.message_id, user.id, 0, now⟩]⟩) := by
  have hparse : parse_gemini_response loads text = Option.none := by
    rw [parse_gemini_response, hjson]
    rfl
  refine ⟨hparse, ?_⟩
  have hnone : find_processed st.processed_emails email.message_id user.id = Option.none := by
    cases hfp : find_processed st.processed_emails email.message_id user.id with
    | none => rfl
    | some r => rw [is_processed, hfp] at hnew; simp at hnew
  simp only [process_email_for_tasks, extract_task_from_email, hparse, hsender, hnew,
    if_false, mark_email_no_task, mark_as_processed, processed_insert_one, hnone,
    is_processed]
  simp [hnone]

/-- C3 witness: garbage text on an empty state yields exactly one ledger
record with zero tasks. -/
theorem malformed_response_ledgered_zero_witness :
    parse_gemini_response (fun _ => Option.none) "not json" = Option.none ∧
    process_email_for_tasks (fun _ => Option.none) (some "not json")
      ⟨"m1", "Subj", "Body", "Boss <boss@x.com>"⟩ userW 7 ⟨[], []⟩ =
      (false, ⟨[], [⟨"m1", "u1", 0, 7⟩]⟩) :=
  malformed_response_ledgered_zero (fun _ => Option.none) "not json"
    ⟨"m1", "Subj", "Body", "Boss <boss@x.com>"⟩ userW 7 ⟨[], []⟩ rfl (by decide) rfl

/-! ## C8: concurrent manual trigger rejection -/

/-- C8: a manual process request from the owner against a meeting already
in `processing` is rejected with HTTP 400, `success: false`, and no
background processing run is started; the stored meeting is unchanged. -/
theorem process_route_rejects_processing
    (m : MeetingDoc) (rid : String) (now : Timestamp)
    (hown : m.user_id = rid) (hst : m.processing_status = "processing") :
    meeting_process_post rid (some m) now = ⟨400, false, false, some m⟩ := by
  simp [meeting_process_post, hown, hst]

/-- C8 witness: the concrete processing meeting yields the 400 conflict
response. -/
theorem process_route_rejects_processing_witness :
    meeting_process_post "u1" (some { meetingW with processing_status := "processing" }) 5 =
      ⟨400, false, false, some { meetingW with processing_status := "processing" }⟩ :=
  process_route_rejects_processing { meetingW with processing_status := "processing" }
    "u1" 5 rfl rfl

/-! ## C10: update_status frame -/

/-- C10: `Meeting.update_status` called with only a new status changes
exactly `processing_status` and `updated_at`; in particular
`processed_at` and `error_message` are never cleared, so a failed
meeting re-entered into `processing` keeps its previous error message. -/
theorem update_status_frame (m : MeetingDoc) (status : String) (now : Timestamp) :
    (Meeting.update_status m status now Option.none Option.none).processing_status = status ∧
    (Meeting.update_status m status now Option.none Option.none).updated_at = now ∧
    (Meeting.update_status m status now Option.none Option.none).id = m.id ∧
    (Meeting.update_status m status now Option.none Option.none).calendar_event_id
      = m.calendar_event_id ∧
    (Meeting.update_status m status now Option.none Option.none).user_id = m.user_id ∧
    (Meeting.update_status m status now Option.none Option.none).title = m.title ∧
    (Meeting.update_status m status now Option.none Option.none).description = m.description ∧
    (Meeting.update_status m status now Option.none Option.none).start_time = m.start_time ∧
    (Meeting.update_status m status now Option.none Option.none).end_time = m.end_time ∧
    (Meeting.update_status m status now Option.none Option.none).attendees = m.attendees ∧
    (Meeting.update_status m status now Option.none Option.none).meet_link = m.meet_link ∧
    (Meeting.update_status m status now Option.none Option.none).recording_url
      = m.recording_url ∧
    (Meeting.update_status m status now Option.none Option.none).recording_id
      = m.recording_id ∧
    (Meeting.update_status m status now Option.none Option.none).created_at = m.created_at ∧
    (Meeting.update_status m status now Option.none Option.none).processed_at
      = m.processed_at ∧
    (Meeting.update_status m status now Option.none Option.none).error_message
      = m.error_message :=
  ⟨rfl, rfl, rfl, rfl, rfl, rfl, rfl, rfl, rfl, rfl, rfl, rfl, rfl, rfl, rfl, rfl⟩


/-! ## C5: meeting failure transitions -/

theorem meeting_fail_status (st : MeetingProcState) (now : Timestamp) (msg : String) :
    (meeting_fail st now msg).2.meeting.processing_status = "failed" := by
  simp only [meeting_fail, Meeting.update_status]
  split <;> rfl

theorem meeting_fail_error_isSome (st : MeetingProcState) (now : Timestamp) (msg : String)
    (h : strIsEmpty msg = false) :
    ((meeting_fail st now msg).2.meeting.error_message).isSome = true := by
  simp [meeting_fail, Meeting.update_status, h]

theorem process_meeting_status_dichotomy (env : MeetingEnv) (freshTaskId : Nat → String)
    (now : Timestamp) (st : MeetingProcState) :
    ((process_meeting env freshTaskId now st).1 = true ∧
     (process_meeting env freshTaskId now st).2.meeting.processing_status = "completed") ∨
    ((process_meeting env freshTaskId now st).1 = false ∧
     (process_meeting env freshTaskId now st).2.meeting.processing_status = "failed") := by
  obtain ⟨ouser, drive, tf, dt, stxt, loads⟩ := env
  cases ouser with
  | none => exact Or.inr ⟨rfl, meeting_fail_status _ _ _⟩
  | some user =>
    cases drive with
    | false => exact Or.inr ⟨rfl, meeting_fail_status _ _ _⟩
    | true =>
      cases tf with
      | none => exact Or.inr ⟨rfl, meeting_fail_status _ _ _⟩
      | some f =>
        cases dt with
        | none => exact Or.inr ⟨rfl, meeting_fail_status _ _ _⟩
        | some text =>
          simp only [process_meeting]
          repeat
            first
            | exact Or.inr ⟨rfl, meeting_fail_status _ _ _⟩
            | exact Or.inl ⟨rfl, rfl⟩
            | split

/-- C5: a meeting whose processing run finds no transcript/notes document
(or an unreadable/empty one) ends `failed` with an error message and not
`completed`; more generally every run ends `completed` or `failed`, and
every unsuccessful run (any exception path included) ends `failed`. -/
theorem meeting_failure_forces_failed (env : MeetingEnv) (freshTaskId : Nat → String)
    (now : Timestamp) (st : MeetingProcState) :
    ((env.transcriptFile = Option.none ∨ env.docText = Option.none ∨ env.docText = some "") →
       (process_meeting env freshTaskId now st).1 = false ∧
       (process_meeting env freshTaskId now st).2.meeting.processing_status = "failed" ∧
       ((process_meeting env freshTaskId now st).2.meeting.error_message).isSome = true) ∧
    ((process_meeting env freshTaskId now st).2.meeting.processing_status = "failed" ∨
     (process_meeting env freshTaskId now st).2.meeting.processing_status = "completed") ∧
    ((process_meeting env freshTaskId now st).1 = false →
       (process_meeting env freshTaskId now st).2.meeting.processing_status = "failed") := by
  refine ⟨?_, ?_, ?_⟩
  · intro hcase
    obtain ⟨ouser, drive, tf, dt, stxt, loads⟩ := env
    simp only at hcase
    cases ouser with
    | none =>
      exact ⟨rfl, meeting_fail_status _ _ _, meeting_fail_error_isSome _ _ _ rfl⟩
    | some user =>
      cases drive with
      | false =>
        exact ⟨rfl, meeting_fail_status _ _ _, meeting_fail_error_isSome _ _ _ rfl⟩
      | true =>
        cases tf with
        | none =>
          exact ⟨rfl, meeting_fail_status _ _ _, meeting_fail_error_isSome _ _ _ rfl⟩
        | some f =>
          cases dt with
          | none =>
            exact ⟨rfl, meeting_fail_status _ _ _, meeting_fail_error_isSome _ _ _ rfl⟩
          | some text =>
            rcases hcase with h1 | h2 | h3
            · exact Option.noConfusion h1
            · exact Option.noConfusion h2
            · cases Option.some.inj h3
              exact ⟨rfl, meeting_fail_status _ _ _, meeting_fail_error_isSome _ _ _ rfl⟩
  · rcases process_meeting_status_dichotomy env freshTaskId now st with ⟨_, h⟩ | ⟨_, h⟩
    · exact Or.inr h
    · exact Or.inl h
  · intro hf
    rcases process_meeting_status_dichotomy env freshTaskId now st with ⟨ht, _⟩ | ⟨_, h⟩
    · rw [hf] at ht
      exact Bool.noConfusion ht
    · exact h

/-- C5 witness: with no transcript document found, the run returns `False`
and the meeting ends `failed` with an error message set. -/
theorem meeting_failure_forces_failed_witness :
    (process_meeting ⟨some userW, true, Option.none, Option.none, Option.none,
        fun _ => Option.none⟩ (fun _ => "t") 9 ⟨meetingW, [], [], []⟩).1 = false ∧
    (process_meeting ⟨some userW, true, Option.none, Option.none, Option.none,
        fun _ => Option.none⟩ (fun _ => "t") 9
        ⟨meetingW, [], [], []⟩).2.meeting.processing_status = "failed" ∧
    ((process_meeting ⟨some userW, true, Option.none, Option.none, Option.none,
        fun _ => Option.none⟩ (fun _ => "t") 9
        ⟨meetingW, [], [], []⟩).2.meeting.error_message).isSome = true :=
  (meeting_failure_forces_failed
      ⟨some userW, true, Option.none, Option.none, Option.none, fun _ => Option.none⟩
      (fun _ => "t") 9 ⟨meetingW, [], [], []⟩).1 (Or.inl rfl)


/-! ## C9: denormalized owner email on created tasks -/

theorem mem_task_create (tasks : List TaskDoc) (d t : TaskDoc)
    (h : t ∈ Task.create tasks d) : t ∈ tasks ∨ t.user_email = d.user_email := by
  rw [Task.create, List.mem_append] at h
  rcases h with h | h
  · exact Or.inl h
  · rcases List.mem_singleton.mp h with rfl
    exact Or.inr rfl

theorem create_email_tasks_owner (email : EmailData) (user : UserDoc) (se : String)
    (labels : PyVal) (now : Timestamp) :
    ∀ (items : List PyVal) (tasks : List TaskDoc) (count : Nat) (t : TaskDoc),
      t ∈ (create_email_tasks email user se labels now items tasks count).1 →
      t ∈ tasks ∨ t.user_email = user.email := by
  intro items
  induction items with
  | nil => intro tasks count t h; exact Or.inl h
  | cons i rest ih =>
    intro tasks count t h
    cases i with
    | dict tif =>
      simp only [create_email_tasks] at h
      rcases ih _ _ t h with h1 | h1
      · exact mem_task_create _ _ _ h1
      · exact Or.inr h1
    | none => simp only [create_email_tasks] at h; exact ih _ _ t h
    | bool b => simp only [create_email_tasks] at h; exact ih _ _ t h
    | int n => simp only [create_email_tasks] at h; exact ih _ _ t h
    | str s => simp only [create_email_tasks] at h; exact ih _ _ t h
    | list xs => simp only [create_email_tasks] at h; exact ih _ _ t h
    | date y m d => simp only [create_email_tasks] at h; exact ih _ _ t h

theorem mark_email_no_task_tasks (e u : String) (now : Timestamp)
    (st : EmailPipelineState) :
    (mark_email_no_task e u now st).2.tasks = st.tasks := by
  simp only [mark_email_no_task]
  split <;> rfl

theorem email_task_owner (loads : String → Option PyVal) (geminiText : Option String)
    (email : EmailData) (user : UserDoc) (now : Timestamp) (st : EmailPipelineState) :
    ∀ t, t ∈ (process_email_for_tasks loads geminiText email user now st).2.tasks →
      t ∈ st.tasks ∨ t.user_email = user.email := by
  intro t h
  simp only [process_email_for_tasks] at h
  repeat
    first
    | exact Or.inl h
    | exact create_email_tasks_owner _ _ _ _ _ _ _ _ t h
    | (rw [mark_email_no_task_tasks] at h; exact Or.inl h)
    | split at h

theorem create_action_item_tasks_owner (user : UserDoc) (meeting : MeetingDoc)
    (freshTaskId : Nat → String) (now : Timestamp) :
    ∀ (items : List (Nat × PyVal)) (tasks : List TaskDoc) (summaries : List SummaryDoc)
      (count : Nat) (t : TaskDoc),
      t ∈ (create_action_item_tasks user meeting freshTaskId now items
             tasks summaries count).1 →
      t ∈ tasks ∨ t.user_email = user.email := by
  intro items
  induction items with
  | nil => intro tasks summaries count t h; exact Or.inl h
  | cons p rest ih =>
    intro tasks summaries count t h
    obtain ⟨idx, item⟩ := p
    cases item with
    | dict afs =>
      simp only [create_action_item_tasks] at h
      split at h
      · exact ih _ _ _ t h
      · split at h
        · exact ih _ _ _ t h
        · rcases ih _ _ _ t h with h1 | h1
          · exact mem_task_create _ _ _ h1
          · exact Or.inr h1
    | none => simp only [create_action_item_tasks] at h; exact ih _ _ _ t h
    | bool b => simp only [create_action_item_tasks] at h; exact ih _ _ _ t h
    | int n => simp only [create_action_item_tasks] at h; exact ih _ _ _ t h
    | str s => simp only [create_action_item_tasks] at h; exact ih _ _ _ t h
    | list xs => simp only [create_action_item_tasks] at h; exact ih _ _ _ t h
    | date y m d => simp only [create_action_item_tasks] at h; exact ih _ _ _ t h

theorem meeting_task_owner (env : MeetingEnv) (freshTaskId : Nat → String)
    (now : Timestamp) (st : MeetingProcState) :
    ∀ t, t ∈ (process_meeting env freshTaskId now st).2.tasks →
      t ∈ st.tasks ∨ ∃ u, env.user = some u ∧ t.user_email = u.email := by
  intro t h
  obtain ⟨ouser, drive, tf, dt, stxt, loads⟩ := env
  cases ouser with
  | none => exact Or.inl h
  | some user =>
    cases drive with
    | false => exact Or.inl h
    | true =>
      cases tf with
      | none => exact Or.inl h
      | some f =>
        cases dt with
        | none => exact Or.inl h
        | some text =>
          simp only [process_meeting] at h
          repeat
            first
            | exact Or.inl h
            | exact (create_action_item_tasks_owner user _ freshTaskId now _ _ _ _ t h).imp
                id (fun he => ⟨user, rfl, he⟩)
            | split at h

/-- C9: every Task materialized by the email pipeline or the meeting
processing routine carries the denormalized owner field
`user_email = owner.email`. -/
theorem task_owner_email_denormalized
    (loads : String → Option PyVal) (geminiText : Option String) (email : EmailData)
    (user : UserDoc) (now : Timestamp) (st : EmailPipelineState)
    (env : MeetingEnv) (freshTaskId : Nat → String) (mnow : Timestamp)
    (mst : MeetingProcState) :
    (∀ t, t ∈ (process_email_for_tasks loads geminiText email user now st).2.tasks →
       t ∈ st.tasks ∨ t.user_email = user.email) ∧
    (∀ t, t ∈ (process_meeting env freshTaskId mnow mst).2.tasks →
       t ∈ mst.tasks ∨ ∃ u, env.user = some u ∧ t.user_email = u.email) :=
  ⟨email_task_owner loads geminiText email user now st,
   meeting_task_owner env freshTaskId mnow mst⟩


/-- One well-formed extraction response with a single task. -/
def goodTasksJson : PyVal :=
  .dict [("has_tasks", .bool true),
         ("tasks", .list [.dict [("title", .str "T1"), ("description", .str "D1")]])]

/-- A concrete incoming email from a third party. -/
def emailW : EmailData := ⟨"m1", "Subj", "Body", "Boss <boss@x.com>"⟩

/-- The Task the email pipeline materializes from `goodTasksJson`. -/
def taskW : TaskDoc :=
  ⟨.str "T1", .str "D1", .str "medium", "pending", .none, some "u1", some "u1",
   some "m1", some "boss@x.com", some "me@x.com", .list [], "email",
   Option.none, Option.none, .none, 7⟩

/-- The Task the meeting pipeline materializes in `emptyDeadlineEnv`. -/
def taskMW : TaskDoc :=
  ⟨.str "Do X", .str "Do X", .str "medium", "pending", .str "", some "u1", some "u1",
   Option.none, Option.none, some "me@x.com", .list [], "meeting",
   some "mid1", some "Standup", .none, 9⟩

/-- C9 witness: the concrete email-created and meeting-created tasks carry
`user_email = some "me@x.com"`, the owner's address. -/
theorem task_owner_email_denormalized_witness :
    (taskW ∈ ([] : List TaskDoc) ∨ taskW.user_email = userW.email) ∧
    (taskMW ∈ ([] : List TaskDoc) ∨
      ∃ u, emptyDeadlineEnv.user = some u ∧ taskMW.user_email = u.email) := by
  constructor
  · refine (task_owner_email_denormalized (fun _ => some goodTasksJson) (some "resp")
      emailW userW 7 ⟨[], []⟩ emptyDeadlineEnv (fun _ => "t0") 9
      ⟨meetingW, [], [], []⟩).1 taskW ?_
    show taskW ∈ [taskW]
    exact List.mem_singleton.mpr rfl
  · refine (task_owner_email_denormalized (fun _ => some goodTasksJson) (some "resp")
      emailW userW 7 ⟨[], []⟩ emptyDeadlineEnv (fun _ => "t0") 9
      ⟨meetingW, [], [], []⟩).2 taskMW ?_
    show taskMW ∈ [taskMW]
    exact List.mem_singleton.mpr rfl

end Kairo
